import Mathlib

/-!
Verification of the camera projection / rendering core of the 3Dto2DImg
repository, shallowly embedded in Lean 4.

Conventions of the embedding:
* Python floats are modelled by `ℚ` (exact arithmetic); the trigonometric
  values `math.cos(rad)`, `math.sin(rad)` of an Euler angle are abstracted
  as a pair `(c, s)` of rationals constrained by `c^2 + s^2 = 1` where a
  theorem needs the Pythagorean identity.
* Python `int(x)` (truncation toward zero) is modelled by `pyTrunc`.
* A Python function that can raise is modelled with `Option`: `none` is a
  raised exception.
* NumPy vectors are `Fin 3 → ℚ`, matrices `Matrix (Fin 3) (Fin 3) ℚ`.
-/

namespace Spec2Proof

/-- Python `int(q)` for a float `q`: truncation toward zero
(`Int.tdiv` is T-division, matching C / Python `int()` truncation). -/
def pyTrunc (q : ℚ) : ℤ := q.num.tdiv (q.den : ℤ)

/-- `Tranceform3D2D` (sic) from `calc3Dto2D.py`: pinhole camera state.
`__init__(fx, fy, cx, cy)` sets `_R = np.eye(3)`, `_t = np.zeros(3)`. -/
structure Tranceform3D2D where
  fx : ℚ
  fy : ℚ
  cx : ℚ
  cy : ℚ
  R : Matrix (Fin 3) (Fin 3) ℚ
  t : Fin 3 → ℚ

/-- `Tranceform3D2D.__init__`. -/
def Tranceform3D2D.init (fx fy cx cy : ℚ) : Tranceform3D2D :=
  { fx := fx, fy := fy, cx := cx, cy := cy, R := 1, t := 0 }

/-- `Tranceform3D2D.set_focal_length`. -/
def Tranceform3D2D.set_focal_length (cam : Tranceform3D2D) (fx fy : ℚ) :
    Tranceform3D2D :=
  { cam with fx := fx, fy := fy }

/-- `Tranceform3D2D._rotation_matrix(angle, axis)` with the source's three
branches; `c, s` stand for `math.cos(radians(angle))`, `math.sin(...)`. -/
def rotation_matrix (c s : ℚ) (axis : Fin 3) : Matrix (Fin 3) (Fin 3) ℚ :=
  if axis = 0 then
    Matrix.of ![![1, 0, 0], ![0, c, -s], ![0, s, c]]
  else if axis = 1 then
    Matrix.of ![![c, 0, s], ![0, 1, 0], ![-s, 0, c]]
  else
    Matrix.of ![![c, -s, 0], ![s, c, 0], ![0, 0, 1]]

/-- `Tranceform3D2D.set_external_parameter(roll, pitch, yaw, tx, ty, tz)`:
`R = Rz(yaw) @ Ry(pitch) @ Rx(roll)`, `t = [tx, ty, tz]`.  The cosine and
sine of each angle are passed as `(c?, s?)` pairs. -/
def Tranceform3D2D.set_external_parameter (cam : Tranceform3D2D)
    (cRoll sRoll cPitch sPitch cYaw sYaw tx ty tz : ℚ) : Tranceform3D2D :=
  { cam with
    R := rotation_matrix cYaw sYaw 2 * rotation_matrix cPitch sPitch 1 *
         rotation_matrix cRoll sRoll 0
    t := ![tx, ty, tz] }

/-- Camera-space coordinates `point_camera = _R @ (point_3d - _t)`. -/
def Tranceform3D2D.pointCamera (cam : Tranceform3D2D) (x y z : ℚ) :
    Fin 3 → ℚ :=
  cam.R.mulVec (![x, y, z] - cam.t)

/-- `cam_forward = -point_camera[0]` (the depth used throughout the file). -/
def Tranceform3D2D.camForward (cam : Tranceform3D2D) (x y z : ℚ) : ℚ :=
  -(cam.pointCamera x y z 0)

/-- `cam_right = point_camera[1]`. -/
def Tranceform3D2D.camRight (cam : Tranceform3D2D) (x y z : ℚ) : ℚ :=
  cam.pointCamera x y z 1

/-- `cam_down = -point_camera[2]`. -/
def Tranceform3D2D.camDown (cam : Tranceform3D2D) (x y z : ℚ) : ℚ :=
  -(cam.pointCamera x y z 2)

/-- The raw projection formula
`(int(fx*cam_right/cam_forward + cx), int(fy*cam_down/cam_forward + cy))`
shared by `cvt_3d_to_2d` and the guarded branch of
`cvt_3d_to_2d_with_depth`. -/
def Tranceform3D2D.project2d (cam : Tranceform3D2D) (x y z : ℚ) : ℤ × ℤ :=
  (pyTrunc (cam.fx * cam.camRight x y z / cam.camForward x y z + cam.cx),
   pyTrunc (cam.fy * cam.camDown x y z / cam.camForward x y z + cam.cy))

/-- `Tranceform3D2D.cvt_3d_to_2d`: divides by `cam_forward` with no guard.
When `cam_forward = 0` the float division yields `±inf` or `nan` and
`int(...)` raises (`OverflowError` / `ValueError`); this is modelled as
`none`.  For any nonzero `cam_forward` (negative included) the Python
function returns the truncated coordinates. -/
def Tranceform3D2D.cvt_3d_to_2d (cam : Tranceform3D2D) (x y z : ℚ) :
    Option (ℤ × ℤ) :=
  if cam.camForward x y z = 0 then none else some (cam.project2d x y z)

/-- `Tranceform3D2D.cvt_3d_to_2d_with_depth`: projects only when
`cam_forward > 0`, otherwise returns the sentinel `(-10000, -10000)`
together with the (non-positive) `cam_forward`. -/
def Tranceform3D2D.cvt_3d_to_2d_with_depth (cam : Tranceform3D2D)
    (x y z : ℚ) : ℤ × ℤ × ℚ :=
  if 0 < cam.camForward x y z then
    ((cam.project2d x y z).1, (cam.project2d x y z).2, cam.camForward x y z)
  else
    (-10000, -10000, cam.camForward x y z)

/-- `Tranceform3D2D.is_point_visible(x, y, z, img_width, img_height,
margin=100)`. -/
def Tranceform3D2D.is_point_visible (cam : Tranceform3D2D) (x y z : ℚ)
    (imgWidth imgHeight : ℤ) (margin : ℚ := 100) : Bool :=
  if (cam.cvt_3d_to_2d_with_depth x y z).2.2 ≤ 0 then false
  else decide
    (-margin ≤ ((cam.cvt_3d_to_2d_with_depth x y z).1 : ℚ) ∧
     ((cam.cvt_3d_to_2d_with_depth x y z).1 : ℚ) ≤ (imgWidth : ℚ) + margin ∧
     -margin ≤ ((cam.cvt_3d_to_2d_with_depth x y z).2.1 : ℚ) ∧
     ((cam.cvt_3d_to_2d_with_depth x y z).2.1 : ℚ) ≤ (imgHeight : ℚ) + margin)

/-- `max(lo, min(hi, v))`, the clamp used at the end of
`clip_line_to_screen`. -/
def pyClamp (lo hi v : ℤ) : ℤ := max lo (min hi v)

/-- The clamping block of `clip_line_to_screen`: both coordinates clamped
into the `±10000`-pixel bound around the image. -/
def clampPairDef (imgWidth imgHeight : ℤ) (p : ℤ × ℤ) : ℤ × ℤ :=
  (pyClamp (-10000) (imgWidth + 10000) p.1,
   pyClamp (-10000) (imgHeight + 10000) p.2)

/-- The screen coordinates `(x_2d, y_2d)` of
`cvt_3d_to_2d_with_depth(*p)` for a point given as a tuple. -/
def Tranceform3D2D.screen2 (cam : Tranceform3D2D) (p : ℚ × ℚ × ℚ) :
    ℤ × ℤ :=
  ((cam.cvt_3d_to_2d_with_depth p.1 p.2.1 p.2.2).1,
   (cam.cvt_3d_to_2d_with_depth p.1 p.2.1 p.2.2).2.1)

/-- The depth of `cvt_3d_to_2d_with_depth(*p)` for a point given as a
tuple. -/
def Tranceform3D2D.depthAt (cam : Tranceform3D2D) (p : ℚ × ℚ × ℚ) : ℚ :=
  (cam.cvt_3d_to_2d_with_depth p.1 p.2.1 p.2.2).2.2

/-- The three world-space interpolation lines of `clip_line_to_screen`:
`p1 + t * (p2 - p1)` componentwise. -/
def lerp3 (p1 p2 : ℚ × ℚ × ℚ) (t : ℚ) : ℚ × ℚ × ℚ :=
  (p1.1 + t * (p2.1 - p1.1), p1.2.1 + t * (p2.2.1 - p1.2.1),
   p1.2.2 + t * (p2.2.2 - p1.2.2))

/-- The interpolation parameter `t = (0.1 - depth1) / (depth2 - depth1)` of
`clip_line_to_screen` (the same formula in both behind-camera branches). -/
def Tranceform3D2D.clipT (cam : Tranceform3D2D) (p1 p2 : ℚ × ℚ × ℚ) : ℚ :=
  (1/10 - cam.depthAt p1) / (cam.depthAt p2 - cam.depthAt p1)

/-- `Tranceform3D2D.clip_line_to_screen(p1_3d, p2_3d, img_width,
img_height)`, translated branch by branch from the source. -/
def Tranceform3D2D.clip_line_to_screen (cam : Tranceform3D2D)
    (p1 p2 : ℚ × ℚ × ℚ) (imgWidth imgHeight : ℤ) :
    Option ((ℤ × ℤ) × (ℤ × ℤ)) :=
  let d1 := cam.depthAt p1
  let d2 := cam.depthAt p2
  if d1 ≤ 0 ∧ d2 ≤ 0 then none
  else if d1 ≤ 0 ∨ d2 ≤ 0 then
    if d1 ≤ 0 then
      if 1/1000 < |d1 - d2| then
        let t := cam.clipT p1 p2
        if 0 < t ∧ t < 1 then
          some (clampPairDef imgWidth imgHeight (cam.screen2 (lerp3 p1 p2 t)),
                clampPairDef imgWidth imgHeight (cam.screen2 p2))
        else none
      else none
    else
      if 1/1000 < |d1 - d2| then
        let t := cam.clipT p1 p2
        if 0 < t ∧ t < 1 then
          some (clampPairDef imgWidth imgHeight (cam.screen2 p1),
                clampPairDef imgWidth imgHeight (cam.screen2 (lerp3 p1 p2 t)))
        else none
      else none
  else
    some (clampPairDef imgWidth imgHeight (cam.screen2 p1),
          clampPairDef imgWidth imgHeight (cam.screen2 p2))

/-- State of `RoomDesigner` relevant to `_screen_to_world`: the shared
`Tranceform3D2D` object plus the designer's own `center_x`, `center_y`
fields (which it uses as the principal point there). -/
structure RoomDesigner where
  transform : Tranceform3D2D
  center_x : ℚ
  center_y : ℚ

/-- The camera-space ray of `_screen_to_world`:
`ray_camera = [(screen_x - cx)/fx, (screen_y - cy)/fy, 1.0]` with
`cx, cy = self.center_x, self.center_y`. -/
def RoomDesigner.rayCamera (st : RoomDesigner) (screenX screenY : ℤ) :
    Fin 3 → ℚ :=
  ![((screenX : ℚ) - st.center_x) / st.transform.fx,
    ((screenY : ℚ) - st.center_y) / st.transform.fy, 1]

/-- `ray_world = self.transform._R.T @ ray_camera`. -/
def RoomDesigner.rayWorld (st : RoomDesigner) (screenX screenY : ℤ) :
    Fin 3 → ℚ :=
  st.transform.R.transpose.mulVec (st.rayCamera screenX screenY)

/-- `t = -camera_pos[2] / ray_world[2]` (the floor-intersection
parameter). -/
def RoomDesigner.floorT (st : RoomDesigner) (screenX screenY : ℤ) : ℚ :=
  -(st.transform.t 2) / st.rayWorld screenX screenY 2

/-- `RoomDesigner._screen_to_world(screen_x, screen_y)` translated line by
line: builds the camera-space ray, rotates it by `_R.T`, intersects the
floor `z = 0`; `None` when `abs(ray_world[2]) <= 0.001` or `t <= 0`. -/
def RoomDesigner.screen_to_world (st : RoomDesigner) (screenX screenY : ℤ) :
    Option (ℚ × ℚ) :=
  let rayWorld := st.rayWorld screenX screenY
  let cameraPos := st.transform.t
  if 1/1000 < |rayWorld 2| then
    let t := st.floorT screenX screenY
    if 0 < t then
      some (cameraPos 0 + t * rayWorld 0, cameraPos 1 + t * rayWorld 1)
    else none
  else none

/-- `Furniture` from `furniture.py` (geometric fields; `name`, `color` and
`is_selected` do not affect the operations verified here). -/
structure Furniture where
  x : ℚ
  y : ℚ
  z : ℚ
  width : ℚ
  height : ℚ
  depth : ℚ

/-- `Furniture.get_vertices`: bottom 4 then top 4 corners, `depth` along X,
`width` along Y, `height` along Z. -/
def Furniture.get_vertices (f : Furniture) : List (ℚ × ℚ × ℚ) :=
  [(f.x, f.y, f.z),
   (f.x + f.depth, f.y, f.z),
   (f.x + f.depth, f.y + f.width, f.z),
   (f.x, f.y + f.width, f.z),
   (f.x, f.y, f.z + f.height),
   (f.x + f.depth, f.y, f.z + f.height),
   (f.x + f.depth, f.y + f.width, f.z + f.height),
   (f.x, f.y + f.width, f.z + f.height)]

/-- `Furniture.get_faces`: 6 quads as (vertex index list, outward normal). -/
def Furniture.get_faces (_f : Furniture) :
    List (List ℕ × (ℚ × ℚ × ℚ)) :=
  [([0, 3, 2, 1], (0, 0, -1)),
   ([4, 5, 6, 7], (0, 0, 1)),
   ([0, 1, 5, 4], (-1, 0, 0)),
   ([2, 3, 7, 6], (1, 0, 0)),
   ([0, 4, 7, 3], (0, -1, 0)),
   ([1, 2, 6, 5], (0, 1, 0))]

/-- One step of the `for` loop of `Furniture._point_in_polygon` for the edge
`(p1x, p1y) - (p2x, p2y)`.  (When `p1y == p2y` the outer guards are
unsatisfiable, so the value of `xinters` — stale in Python, junk here — is
never consulted.) -/
def pipStep (px py : ℤ) (inside : Bool) (p1 p2 : ℤ × ℤ) : Bool :=
  if py > min p1.2 p2.2 ∧ py ≤ max p1.2 p2.2 ∧ px ≤ max p1.1 p2.1 then
    let xinters : ℚ :=
      ((py : ℚ) - (p1.2 : ℚ)) * ((p2.1 : ℚ) - (p1.1 : ℚ)) /
        ((p2.2 : ℚ) - (p1.2 : ℚ)) + (p1.1 : ℚ)
    if p1.1 = p2.1 ∨ (px : ℚ) ≤ xinters then !inside else inside
  else inside

/-- `Furniture._point_in_polygon(px, py, polygon)`: even-odd ray casting
over the edges `(polygon[i], polygon[(i+1) % n])`. -/
def point_in_polygon (px py : ℤ) (polygon : List (ℤ × ℤ)) : Bool :=
  (polygon.zip (polygon.rotate 1)).foldl
    (fun inside e => pipStep px py inside e.1 e.2) false

/-- The loop of `Furniture.is_point_inside_2d` collecting the projections of
the 4 floor vertices that are individually visible.  In the visible branch
`cvt_3d_to_2d` cannot raise (`cam_forward > 0`), so it equals
`project2d`. -/
def Furniture.floor_vertices_2d (f : Furniture) (cam : Tranceform3D2D)
    (imgWidth imgHeight : ℤ) : List (ℤ × ℤ) :=
  (f.get_vertices.take 4).filterMap fun v =>
    if cam.is_point_visible v.1 v.2.1 v.2.2 imgWidth imgHeight then
      some (cam.project2d v.1 v.2.1 v.2.2)
    else none

/-- `Furniture.is_point_inside_2d(px, py, transform, img_width,
img_height)`. -/
def Furniture.is_point_inside_2d (f : Furniture) (px py : ℤ)
    (cam : Tranceform3D2D) (imgWidth imgHeight : ℤ) : Bool :=
  let vs := f.floor_vertices_2d cam imgWidth imgHeight
  if vs.length = 4 then point_in_polygon px py vs else false

/-- Center used by `Room.find_furniture_at_point` (room.py lines 53-55):
`(x + width/2, y + depth/2, z)`. -/
def Furniture.pickCenter (f : Furniture) : ℚ × ℚ × ℚ :=
  (f.x + f.width / 2, f.y + f.depth / 2, f.z)

/-- Depth of the pick center as reported by `cvt_3d_to_2d_with_depth`. -/
def Furniture.pickDepth (f : Furniture) (cam : Tranceform3D2D) : ℚ :=
  (cam.cvt_3d_to_2d_with_depth f.pickCenter.1 f.pickCenter.2.1
    f.pickCenter.2.2).2.2

/-- Ordering used by Python's stable `sort(key=lambda x: x[1])`. -/
def depthLE (a b : Furniture × ℚ) : Prop := a.2 ≤ b.2

instance : DecidableRel depthLE := fun a b => inferInstanceAs (Decidable (a.2 ≤ b.2))

instance : IsTotal (Furniture × ℚ) depthLE := ⟨fun a b => le_total a.2 b.2⟩

instance : IsTrans (Furniture × ℚ) depthLE :=
  ⟨fun _ _ _ h h' => le_trans h h'⟩

/-- `Room.find_furniture_at_point(px, py, transform, img_width,
img_height)`: keep furniture whose pick-center depth is positive, sort
ascending by depth (Python's sort is stable, as is insertion sort), return
the first whose projected floor polygon contains the point. -/
def find_furniture_at_point (furnitures : List Furniture) (px py : ℤ)
    (cam : Tranceform3D2D) (imgWidth imgHeight : ℤ) : Option Furniture :=
  let withDepth := furnitures.filterMap fun f =>
    if 0 < f.pickDepth cam then some (f, f.pickDepth cam) else none
  let sorted := withDepth.insertionSort depthLE
  (sorted.find? fun fd =>
    fd.1.is_point_inside_2d px py cam imgWidth imgHeight).map Prod.fst

/-- Modelled from the spec: `Tranceform3D2D.get_camera_position` is called
by `Room.draw`, `Furniture.draw` and `RoomDesigner` but is defined nowhere
in the repository; §4.2 of the spec uses "the view vector from camera
position to face centroid", and the camera position held by the transform
is its translation `_t`, so the missing method is modelled as returning
`_t` as a tuple. -/
def Tranceform3D2D.get_camera_position (cam : Tranceform3D2D) : ℚ × ℚ × ℚ :=
  (cam.t 0, cam.t 1, cam.t 2)

/-- `np.mean([...], axis=0)` over the four vertices of a face
(component-wise mean of the vertices selected by the index list). -/
def faceCenter (verts : List (ℚ × ℚ × ℚ)) (idxs : List ℕ) : ℚ × ℚ × ℚ :=
  let pts := idxs.map fun i => verts.getD i (0, 0, 0)
  ((pts.map fun p => p.1).sum / pts.length,
   (pts.map fun p => p.2.1).sum / pts.length,
   (pts.map fun p => p.2.2).sum / pts.length)

/-- `np.dot(normal, view_vector)` for 3-component tuples. -/
def dot3 (a b : ℚ × ℚ × ℚ) : ℚ := a.1 * b.1 + a.2.1 * b.2.1 + a.2.2 * b.2.2

/-- Component-wise difference `face_center - camera_pos`. -/
def sub3 (a b : ℚ × ℚ × ℚ) : ℚ × ℚ × ℚ :=
  (a.1 - b.1, a.2.1 - b.2.1, a.2.2 - b.2.2)

/-- The `faces_with_depth` list built by `Furniture.draw` (furniture.py
lines 184-196): back-face culling is commented out in the source
("バックフェースカリングを無効化"), so the only filter is a positive
centroid depth. -/
def Furniture.faces_with_depth (f : Furniture) (cam : Tranceform3D2D) :
    List (List ℕ × ℚ) :=
  f.get_faces.filterMap fun face =>
    let d := cam.depthAt (faceCenter f.get_vertices face.1)
    if 0 < d then some (face.1, d) else none

/-- `Room` from `room.py` (furnitures held separately where needed). -/
structure Room where
  width : ℚ
  depth : ℚ
  height : ℚ

/-- The room vertex list from `Room.draw` (room.py lines 114-123). -/
def Room.vertices (r : Room) : List (ℚ × ℚ × ℚ) :=
  [(0, 0, 0),
   (r.depth, 0, 0),
   (r.depth, r.width, 0),
   (0, r.width, 0),
   (0, 0, r.height),
   (r.depth, 0, r.height),
   (r.depth, r.width, r.height),
   (0, r.width, r.height)]

/-- The `room_faces` list from `Room.draw` (room.py lines 126-139):
(vertex index list, inward-pointing normal). -/
def room_faces : List (List ℕ × (ℚ × ℚ × ℚ)) :=
  [([0, 1, 2, 3], (0, 0, 1)),
   ([4, 7, 6, 5], (0, 0, -1)),
   ([0, 3, 7, 4], (-1, 0, 0)),
   ([1, 5, 6, 2], (1, 0, 0)),
   ([0, 4, 5, 1], (0, -1, 0)),
   ([3, 2, 6, 7], (0, 1, 0))]

/-- The `room_faces_with_depth` list built by `Room.draw` (room.py lines
142-161): skip a face when `dot(normal, face_center - camera_pos) > 0.01`,
then keep it when its centroid depth is positive. -/
def Room.faces_with_depth (r : Room) (cam : Tranceform3D2D) :
    List (List ℕ × ℚ) :=
  room_faces.filterMap fun face =>
    let center := faceCenter r.vertices face.1
    let viewVector := sub3 center cam.get_camera_position
    if 1/100 < dot3 face.2 viewVector then none
    else
      let d := cam.depthAt center
      if 0 < d then some (face.1, d) else none

/-! ### Render scheduler (`threaded_renderer.py`)

Images are `Pix → ℕ` (an abstract pixel index type, a colour code).  A
drawable furniture is abstracted as the set of pixels its `draw` paints and
the colour it leaves at each painted pixel (`cv2.fillPoly` / `polylines` /
text all overwrite pixels inside their footprint); the scheduler logic of
`render_furnitures_parallel` — chunking, per-chunk copies, pixel-diff merge
— is translated exactly.  `as_completed` yields the chunk results in a
nondeterministic order, so the merge is modelled over an arbitrary
permutation of the chunk list. -/

/-- Per-furniture paint footprint: `draw` overwrites pixel `p` with
`color p` whenever `region p`. -/
structure PaintSpec (Pix : Type) where
  region : Pix → Bool
  color : Pix → ℕ

/-- Effect of `furniture.draw(img, ...)` on the image. -/
def drawPaint {Pix : Type} (f : PaintSpec Pix) (img : Pix → ℕ) : Pix → ℕ :=
  fun p => if f.region p then f.color p else img p

/-- `ThreadedRenderer._render_furniture_chunk`: draw each furniture of the
chunk, in order, on the chunk's private copy of the image. -/
def renderChunk {Pix : Type} (img : Pix → ℕ) (chunk : List (PaintSpec Pix)) :
    Pix → ℕ :=
  chunk.foldl (fun acc f => drawPaint f acc) img

/-- The sequential path of `Room.draw`: draw the depth-sorted furniture
list farthest-first directly into the image. -/
def sequentialRender {Pix : Type} (img : Pix → ℕ)
    (l : List (PaintSpec Pix)) : Pix → ℕ :=
  l.foldl (fun acc f => drawPaint f acc) img

/-- `[lst[i:i+cs] for i in range(0, len(lst), cs)]` for `cs ≥ 1`, with the
list length as fuel. -/
def chunksAux {α : Type} (cs : ℕ) : ℕ → List α → List (List α)
  | _, [] => []
  | 0, l => [l]
  | fuel + 1, l => l.take cs :: chunksAux cs fuel (l.drop cs)

/-- The chunk partition of `render_furnitures_parallel`:
`chunk_size = max(1, len(lst) // num_threads)`. -/
def chunkize {α : Type} (numThreads : ℕ) (l : List α) : List (List α) :=
  chunksAux (max 1 (l.length / numThreads)) l.length l

/-- The merge loop of `render_furnitures_parallel`: starting from a copy of
the pristine image, copy from each chunk result every pixel that differs
from the pristine image. -/
def mergeDiff {Pix : Type} (base : Pix → ℕ) (imgs : List (Pix → ℕ))
    (init : Pix → ℕ) : Pix → ℕ :=
  imgs.foldl (fun res ci p => if ci p ≠ base p then ci p else res p) init

/-- `ThreadedRenderer.render_furnitures_parallel`, with the chunk results
supplied in the (nondeterministic) completion order `order`; faithfulness
requires `order` to be a permutation of `chunkize numThreads l`. -/
def render_furnitures_parallel {Pix : Type} (img : Pix → ℕ)
    (_l : List (PaintSpec Pix)) (_numThreads : ℕ)
    (order : List (List (PaintSpec Pix))) : Pix → ℕ :=
  mergeDiff img (order.map (renderChunk img)) img

/-! ### Attribute dispatch on `Tranceform3D2D` (`room.py` / `furniture.py`)

`Room.draw` and `Furniture.draw` call `transform.get_camera_position()`;
Python resolves the attribute against the class, raising `AttributeError`
when it is absent. -/

/-- The attributes looked up on `Tranceform3D2D` objects by the drawing
code, plus the methods the class actually defines. -/
inductive PyAttr : Type
  | init
  | set_focal_length
  | get_focal_length
  | set_external_parameter
  | rotation_matrix_method
  | cvt_3d_to_2d
  | cvt_3d_to_2d_with_depth
  | is_point_visible
  | clip_line_to_screen
  | get_camera_position
  deriving DecidableEq

/-- Whether `class Tranceform3D2D` in `calc3Dto2D.py` defines the method:
its `def`s are `__init__`, `set_focal_length`, `get_focal_length`,
`set_external_parameter`, `_rotation_matrix`, `cvt_3d_to_2d`,
`cvt_3d_to_2d_with_depth`, `is_point_visible`, `clip_line_to_screen` —
and nothing defines `get_camera_position` anywhere in the repository. -/
def tranceform3D2D_defines : PyAttr → Bool
  | .init => true
  | .set_focal_length => true
  | .get_focal_length => true
  | .set_external_parameter => true
  | .rotation_matrix_method => true
  | .cvt_3d_to_2d => true
  | .cvt_3d_to_2d_with_depth => true
  | .is_point_visible => true
  | .clip_line_to_screen => true
  | .get_camera_position => false

/-- A raised Python exception (only the kind is modelled). -/
inductive PyError : Type
  | attributeError
  deriving DecidableEq

/-- `Room.draw` up to its first effects: `draw_axes` runs first (abstracted
as `axes`), then `camera_pos = transform.get_camera_position()` is an
attribute lookup; the remainder of the method is abstracted as `rest`. -/
def room_draw {Img : Type} (axes rest : Img → Img) (img : Img) :
    Img × Option PyError :=
  let img1 := axes img
  if tranceform3D2D_defines .get_camera_position then (rest img1, none)
  else (img1, some .attributeError)

/-- `Furniture.draw` up to its first effects: `get_vertices` and the shape
reads are pure, the first statement touching the transform or the image is
`camera_pos = np.array(transform.get_camera_position())`; the remainder is
abstracted as `rest`. -/
def furniture_draw {Img : Type} (rest : Img → Img) (img : Img) :
    Img × Option PyError :=
  if tranceform3D2D_defines .get_camera_position then (rest img, none)
  else (img, some .attributeError)

/-! ### Shared helper lemmas and concrete cameras -/

/-- `pointCamera` written out componentwise. -/
lemma pointCamera_eq (cam : Tranceform3D2D) (x y z : ℚ) (i : Fin 3) :
    cam.pointCamera x y z i =
      cam.R i 0 * (x - cam.t 0) + cam.R i 1 * (y - cam.t 1) +
        cam.R i 2 * (z - cam.t 2) := by
  simp [Tranceform3D2D.pointCamera, Matrix.mulVec, Matrix.dotProduct,
    Fin.sum_univ_three, Matrix.vecHead, Matrix.vecTail]

/-- `camForward` written out: minus the first row of `R` dotted with
`p - t`. -/
lemma camForward_eq (cam : Tranceform3D2D) (x y z : ℚ) :
    cam.camForward x y z =
      -(cam.R 0 0 * (x - cam.t 0) + cam.R 0 1 * (y - cam.t 1) +
        cam.R 0 2 * (z - cam.t 2)) := by
  rw [Tranceform3D2D.camForward, pointCamera_eq]

/-- `camRight` written out. -/
lemma camRight_eq (cam : Tranceform3D2D) (x y z : ℚ) :
    cam.camRight x y z =
      cam.R 1 0 * (x - cam.t 0) + cam.R 1 1 * (y - cam.t 1) +
        cam.R 1 2 * (z - cam.t 2) := by
  rw [Tranceform3D2D.camRight, pointCamera_eq]

/-- `camDown` written out. -/
lemma camDown_eq (cam : Tranceform3D2D) (x y z : ℚ) :
    cam.camDown x y z =
      -(cam.R 2 0 * (x - cam.t 0) + cam.R 2 1 * (y - cam.t 1) +
        cam.R 2 2 * (z - cam.t 2)) := by
  rw [Tranceform3D2D.camDown, pointCamera_eq]

/-- The third component returned by `cvt_3d_to_2d_with_depth` is always
`cam_forward`, in both branches. -/
lemma withDepth_depth (cam : Tranceform3D2D) (x y z : ℚ) :
    (cam.cvt_3d_to_2d_with_depth x y z).2.2 = cam.camForward x y z := by
  unfold Tranceform3D2D.cvt_3d_to_2d_with_depth
  split <;> rfl

/-- `depthAt` is `cam_forward` of the point. -/
lemma depthAt_eq (cam : Tranceform3D2D) (p : ℚ × ℚ × ℚ) :
    cam.depthAt p = cam.camForward p.1 p.2.1 p.2.2 :=
  withDepth_depth cam p.1 p.2.1 p.2.2

/-- The identity camera: `set_external_parameter` with all three angles 0
(cosine 1, sine 0) and zero translation. -/
def idCam : Tranceform3D2D :=
  (Tranceform3D2D.init 1 1 0 0).set_external_parameter 1 0 1 0 1 0 0 0 0

lemma idCam_R : idCam.R = 1 := by
  ext i j
  fin_cases i <;> fin_cases j <;>
    simp [idCam, Tranceform3D2D.set_external_parameter, rotation_matrix,
      Matrix.mul_apply, Fin.sum_univ_three, Tranceform3D2D.init,
      Matrix.one_apply, Matrix.vecHead, Matrix.vecTail]

lemma idCam_t : idCam.t = ![0, 0, 0] := rfl

lemma idCam_camForward (x y z : ℚ) : idCam.camForward x y z = -x := by
  rw [camForward_eq, idCam_R, idCam_t]
  simp [Matrix.one_apply]

lemma idCam_camRight (x y z : ℚ) : idCam.camRight x y z = y := by
  rw [camRight_eq, idCam_R, idCam_t]
  simp [Matrix.one_apply]

lemma idCam_camDown (x y z : ℚ) : idCam.camDown x y z = -z := by
  rw [camDown_eq, idCam_R, idCam_t]
  simp [Matrix.one_apply]

/-! ### C1 — failure semantics of `cvt_3d_to_2d` -/

/-- C1 counterexample: with the identity pose set via
`set_external_parameter`, the world point `(0, 1, 1)` has camera-space
depth exactly `0`, and `cvt_3d_to_2d` raises on it (float division by zero
followed by `int(inf)`, modelled as `none`) instead of treating it as
"behind camera"; so the projection operation is not exception-free. -/
theorem C1_counterexample : idCam.cvt_3d_to_2d 0 1 1 = none := by
  simp [Tranceform3D2D.cvt_3d_to_2d, idCam_camForward]

/-- C1 (amended): `cvt_3d_to_2d` divides by the camera-space depth with no
guard: it fails (models a raised exception) exactly when the depth is `0`,
and for every nonzero depth — negative, behind-camera depths included — it
returns the truncated integer coordinates; the guarded "depth ≤ 0 is
behind camera, never raise" behaviour belongs to
`cvt_3d_to_2d_with_depth`, which returns the sentinel instead. -/
theorem C1_cvt_3d_to_2d_failure_semantics (cam : Tranceform3D2D)
    (x y z : ℚ) :
    (cam.cvt_3d_to_2d x y z = none ↔ cam.camForward x y z = 0) ∧
    (cam.camForward x y z ≠ 0 →
      cam.cvt_3d_to_2d x y z = some (cam.project2d x y z)) ∧
    (cam.camForward x y z ≤ 0 →
      cam.cvt_3d_to_2d_with_depth x y z =
        (-10000, -10000, cam.camForward x y z)) := by
  refine ⟨?_, ?_, ?_⟩
  · unfold Tranceform3D2D.cvt_3d_to_2d
    split <;> simp_all
  · intro h
    unfold Tranceform3D2D.cvt_3d_to_2d
    simp [h]
  · intro h
    unfold Tranceform3D2D.cvt_3d_to_2d_with_depth
    rw [if_neg (by linarith)]

/-- C1 witness: at the identity camera and the point `(1, 0, 0)` (depth
`-1`), the amended theorem's hypotheses hold and give the unguarded result
and the sentinel. -/
theorem C1_witness :
    idCam.camForward 1 0 0 ≠ 0 ∧
    idCam.cvt_3d_to_2d 1 0 0 = some (idCam.project2d 1 0 0) ∧
    idCam.cvt_3d_to_2d_with_depth 1 0 0 =
      (-10000, -10000, idCam.camForward 1 0 0) :=
  ⟨by rw [idCam_camForward]; norm_num,
   (C1_cvt_3d_to_2d_failure_semantics idCam 1 0 0).2.1
     (by rw [idCam_camForward]; norm_num),
   (C1_cvt_3d_to_2d_failure_semantics idCam 1 0 0).2.2
     (by rw [idCam_camForward]; norm_num)⟩

/-! ### C3 — `get_camera_position` is undefined -/

/-- C3: every invocation of `Room.draw` or `Furniture.draw` raises an
`AttributeError` before any face is drawn, because both call
`transform.get_camera_position()` and `Tranceform3D2D` defines no such
method; the image is unchanged except for the axes `Room.draw` drew before
the failing call. -/
theorem C3_draw_raises_attribute_error {Img : Type} (axes rest : Img → Img)
    (img : Img) :
    room_draw axes rest img = (axes img, some PyError.attributeError) ∧
    furniture_draw rest img = (img, some PyError.attributeError) :=
  ⟨rfl, rfl⟩

/-! ### C7 — guarded projection with depth -/

/-- C7: `cvt_3d_to_2d_with_depth` returns the truncated-integer projection
together with the strictly positive depth when the camera-space forward
distance is positive, and the sentinel `(-10000, -10000)` together with
the non-positive depth otherwise — in both cases a total result (no
exception). -/
theorem C7_cvt_3d_to_2d_with_depth_total (cam : Tranceform3D2D)
    (x y z : ℚ) :
    (0 < cam.camForward x y z →
      cam.cvt_3d_to_2d_with_depth x y z =
        (pyTrunc (cam.fx * cam.camRight x y z / cam.camForward x y z +
           cam.cx),
         pyTrunc (cam.fy * cam.camDown x y z / cam.camForward x y z +
           cam.cy),
         cam.camForward x y z) ∧
      0 < (cam.cvt_3d_to_2d_with_depth x y z).2.2) ∧
    (cam.camForward x y z ≤ 0 →
      cam.cvt_3d_to_2d_with_depth x y z =
        (-10000, -10000, cam.camForward x y z) ∧
      (cam.cvt_3d_to_2d_with_depth x y z).2.2 ≤ 0) := by
  constructor
  · intro h
    unfold Tranceform3D2D.cvt_3d_to_2d_with_depth
    rw [if_pos h]
    exact ⟨rfl, h⟩
  · intro h
    unfold Tranceform3D2D.cvt_3d_to_2d_with_depth
    rw [if_neg (by linarith)]
    exact ⟨rfl, h⟩

/-- C7 witness: the point `(-1, 0, 0)` has depth `1 > 0` at the identity
camera and projects to `(0, 0)`; the point `(1, 0, 0)` has depth `-1 ≤ 0`
and yields the sentinel. -/
theorem C7_witness :
    (0 < idCam.camForward (-1) 0 0 ∧
      idCam.cvt_3d_to_2d_with_depth (-1) 0 0 =
        (pyTrunc (idCam.fx * idCam.camRight (-1) 0 0 /
           idCam.camForward (-1) 0 0 + idCam.cx),
         pyTrunc (idCam.fy * idCam.camDown (-1) 0 0 /
           idCam.camForward (-1) 0 0 + idCam.cy),
         idCam.camForward (-1) 0 0)) ∧
    (idCam.camForward 1 0 0 ≤ 0 ∧
      idCam.cvt_3d_to_2d_with_depth 1 0 0 =
        (-10000, -10000, idCam.camForward 1 0 0)) :=
  ⟨⟨by rw [idCam_camForward]; norm_num,
    ((C7_cvt_3d_to_2d_with_depth_total idCam (-1) 0 0).1
      (by rw [idCam_camForward]; norm_num)).1⟩,
   ⟨by rw [idCam_camForward]; norm_num,
    ((C7_cvt_3d_to_2d_with_depth_total idCam 1 0 0).2
      (by rw [idCam_camForward]; norm_num)).1⟩⟩

/-! ### C10 — screen-to-floor unprojection -/

/-- C10: `_screen_to_world` builds the camera-space ray
`((sx - cx)/fx, (sy - cy)/fy, 1)`, rotates it into world space by `R.T`,
and computes `t = -camera_z / ray_world_z`; it returns no result exactly
when `|ray_world_z|` is below the epsilon (inclusively: the code tests
`> 0.001`, so "below" means `≤ 0.001`) or `t ≤ 0`, and otherwise returns
`(camera_x + t * ray_x, camera_y + t * ray_y)`. -/
theorem C10_screen_to_world_characterization (st : RoomDesigner)
    (sx sy : ℤ) :
    (st.screen_to_world sx sy = none ↔
      |st.rayWorld sx sy 2| ≤ 1/1000 ∨ st.floorT sx sy ≤ 0) ∧
    (1/1000 < |st.rayWorld sx sy 2| → 0 < st.floorT sx sy →
      st.screen_to_world sx sy =
        some (st.transform.t 0 + st.floorT sx sy * st.rayWorld sx sy 0,
              st.transform.t 1 + st.floorT sx sy * st.rayWorld sx sy 1)) := by
  unfold RoomDesigner.screen_to_world
  dsimp only
  constructor
  · split_ifs with h1 h2
    · simp
      constructor <;> linarith
    · simp
      right
      linarith
    · simp
      left
      linarith
  · intro h1 h2
    rw [if_pos h1, if_pos h2]

/-- Designer used by the C10 witness: identity rotation, camera at
`(0, 0, -5)`, unit focal lengths, principal point `(0, 0)`. -/
def c10Designer : RoomDesigner :=
  ⟨{ idCam with t := ![0, 0, -5] }, 0, 0⟩

lemma c10_rayWorld (j : Fin 3) :
    c10Designer.rayWorld 2 3 j = ![(2 : ℚ), 3, 1] j := by
  have hR : c10Designer.transform.R = 1 := idCam_R
  rw [RoomDesigner.rayWorld, hR]
  simp [RoomDesigner.rayCamera, c10Designer, idCam, Tranceform3D2D.init,
    Tranceform3D2D.set_external_parameter]

lemma c10_floorT : c10Designer.floorT 2 3 = 5 := by
  rw [RoomDesigner.floorT, c10_rayWorld]
  simp [c10Designer]

/-- C10 witness: at screen point `(2, 3)` the ray's world `z` is `1`
(passing the epsilon test), the floor parameter is `5 > 0`, and the
function returns the floor point given by the theorem. -/
theorem C10_witness :
    1/1000 < |c10Designer.rayWorld 2 3 2| ∧ 0 < c10Designer.floorT 2 3 ∧
    c10Designer.screen_to_world 2 3 =
      some (c10Designer.transform.t 0 +
              c10Designer.floorT 2 3 * c10Designer.rayWorld 2 3 0,
            c10Designer.transform.t 1 +
              c10Designer.floorT 2 3 * c10Designer.rayWorld 2 3 1) :=
  ⟨by rw [c10_rayWorld]; norm_num,
   by rw [c10_floorT]; norm_num,
   (C10_screen_to_world_characterization c10Designer 2 3).2
     (by rw [c10_rayWorld]; norm_num) (by rw [c10_floorT]; norm_num)⟩

/-! ### C8 — orthonormality of the rotation matrix -/

/-- Each elementary rotation matrix is orthogonal when `(c, s)` satisfies
the Pythagorean identity. -/
lemma rotation_matrix_orthogonal (c s : ℚ) (axis : Fin 3)
    (h : c ^ 2 + s ^ 2 = 1) :
    (rotation_matrix c s axis).transpose * rotation_matrix c s axis = 1 := by
  fin_cases axis <;>
    (ext i j
     fin_cases i <;> fin_cases j <;>
       simp [rotation_matrix, Matrix.mul_apply, Fin.sum_univ_three,
         Matrix.one_apply, Matrix.vecHead, Matrix.vecTail] <;>
       (first | linear_combination h | ring))

/-- The mutating operations of `Tranceform3D2D` (the projection methods do
not write any state). -/
inductive CameraOp : Type
  | setFocal (fx fy : ℚ)
  | setExternal (cRoll sRoll cPitch sPitch cYaw sYaw tx ty tz : ℚ)

/-- Dispatch of an operation to the corresponding method. -/
def applyOp (cam : Tranceform3D2D) : CameraOp → Tranceform3D2D
  | .setFocal fx fy => cam.set_focal_length fx fy
  | .setExternal cR sR cP sP cY sY tx ty tz =>
      cam.set_external_parameter cR sR cP sP cY sY tx ty tz

/-- An operation is valid when the `(cos, sin)` pairs it passes satisfy
the Pythagorean identity (true of every real angle). -/
def validOp : CameraOp → Prop
  | .setFocal _ _ => True
  | .setExternal cR sR cP sP cY sY _ _ _ =>
      cR ^ 2 + sR ^ 2 = 1 ∧ cP ^ 2 + sP ^ 2 = 1 ∧ cY ^ 2 + sY ^ 2 = 1

/-- One valid operation preserves `Rᵀ * R = 1`. -/
lemma applyOp_preserves_orthonormal (cam : Tranceform3D2D) (op : CameraOp)
    (hcam : cam.R.transpose * cam.R = 1) (hop : validOp op) :
    ((applyOp cam op).R).transpose * (applyOp cam op).R = 1 := by
  cases op with
  | setFocal fx fy => exact hcam
  | setExternal cR sR cP sP cY sY tx ty tz =>
    obtain ⟨h1, h2, h3⟩ := hop
    show (rotation_matrix cY sY 2 * rotation_matrix cP sP 1 *
        rotation_matrix cR sR 0).transpose *
        (rotation_matrix cY sY 2 * rotation_matrix cP sP 1 *
        rotation_matrix cR sR 0) = 1
    rw [Matrix.transpose_mul, Matrix.transpose_mul]
    calc (rotation_matrix cR sR 0).transpose *
          ((rotation_matrix cP sP 1).transpose *
            (rotation_matrix cY sY 2).transpose) *
          (rotation_matrix cY sY 2 * rotation_matrix cP sP 1 *
            rotation_matrix cR sR 0)
        = (rotation_matrix cR sR 0).transpose *
            ((rotation_matrix cP sP 1).transpose *
              (((rotation_matrix cY sY 2).transpose *
                rotation_matrix cY sY 2) * rotation_matrix cP sP 1) *
              rotation_matrix cR sR 0) := by
          simp only [Matrix.mul_assoc]
      _ = 1 := by
          rw [rotation_matrix_orthogonal cY sY 2 h3, Matrix.one_mul,
            rotation_matrix_orthogonal cP sP 1 h2, Matrix.one_mul,
            rotation_matrix_orthogonal cR sR 0 h1]

/-- C8: starting from `__init__` (where `R = eye(3)`), after every sequence
of camera operations whose `set_external_parameter` calls carry genuine
cosine/sine pairs, the stored `R = Rz(yaw) @ Ry(pitch) @ Rx(roll)` remains
orthonormal: `Rᵀ * R = 1` (exactly, over exact arithmetic). -/
theorem C8_rotation_orthonormal (fx fy cx cy : ℚ) (ops : List CameraOp)
    (hv : ∀ op ∈ ops, validOp op) :
    ((ops.foldl applyOp (Tranceform3D2D.init fx fy cx cy)).R).transpose *
      (ops.foldl applyOp (Tranceform3D2D.init fx fy cx cy)).R = 1 := by
  have base : ((Tranceform3D2D.init fx fy cx cy).R).transpose *
      (Tranceform3D2D.init fx fy cx cy).R = 1 := by
    show (1 : Matrix (Fin 3) (Fin 3) ℚ).transpose * 1 = 1
    simp
  induction ops generalizing fx fy cx cy with
  | nil => exact base
  | cons op rest ih =>
    have hgen : ∀ (cam : Tranceform3D2D) (l : List CameraOp),
        cam.R.transpose * cam.R = 1 → (∀ o ∈ l, validOp o) →
        ((l.foldl applyOp cam).R).transpose * (l.foldl applyOp cam).R = 1 := by
      intro cam l
      induction l generalizing cam with
      | nil => intro h _; exact h
      | cons o rest2 ih2 =>
        intro h hval
        exact ih2 (applyOp cam o)
          (applyOp_preserves_orthonormal cam o h (hval o (by simp)))
          (fun o2 ho2 => hval o2 (by simp [ho2]))
    exact hgen _ _ base hv

/-- Operation list used by the C8 witness: a genuine pose (3-4-5 roll,
identity pitch, 5-12-13 yaw) followed by a zoom. -/
def c8Ops : List CameraOp :=
  [CameraOp.setExternal (3/5) (4/5) 1 0 (5/13) (12/13) 7 8 9,
   CameraOp.setFocal 2 2]

/-- C8 witness: the hypotheses hold for `c8Ops` and the resulting rotation
matrix is orthonormal. -/
theorem C8_witness :
    (∀ op ∈ c8Ops, validOp op) ∧
    ((c8Ops.foldl applyOp (Tranceform3D2D.init 1 1 0 0)).R).transpose *
      (c8Ops.foldl applyOp (Tranceform3D2D.init 1 1 0 0)).R = 1 := by
  have hv : ∀ op ∈ c8Ops, validOp op := by
    intro op hop
    simp only [c8Ops, List.mem_cons, List.mem_singleton] at hop
    rcases hop with rfl | rfl | h
    · exact ⟨by norm_num, by norm_num, by norm_num⟩
    · trivial
    · cases h
  exact ⟨hv, C8_rotation_orthonormal 1 1 0 0 c8Ops hv⟩

/-! ### C9 — depth is strictly monotone along the camera's forward axis -/

/-- The world-space forward axis of the camera: the vector `R` maps to
`(-1, 0, 0)`, i.e. the direction of unit increase of `cam_forward` when
the first row of `R` is normalized (true for every rotation matrix). -/
def Tranceform3D2D.forwardAxis (cam : Tranceform3D2D) : Fin 3 → ℚ :=
  fun j => -(cam.R 0 j)

/-- C9: with the pose set by `set_external_parameter` (any genuine Euler
angles), displacing a world point by `s > 0` along the camera's forward
axis strictly increases the depth reported by
`cvt_3d_to_2d_with_depth`. -/
theorem C9_depth_strictly_increases_along_forward (cam : Tranceform3D2D)
    (cR sR cP sP cY sY : ℚ)
    (hR : cam.R = rotation_matrix cY sY 2 * rotation_matrix cP sP 1 *
      rotation_matrix cR sR 0)
    (h1 : cR ^ 2 + sR ^ 2 = 1) (h2 : cP ^ 2 + sP ^ 2 = 1)
    (h3 : cY ^ 2 + sY ^ 2 = 1) (x y z s : ℚ) (hs : 0 < s) :
    (cam.cvt_3d_to_2d_with_depth x y z).2.2 <
    (cam.cvt_3d_to_2d_with_depth (x + s * cam.forwardAxis 0)
      (y + s * cam.forwardAxis 1) (z + s * cam.forwardAxis 2)).2.2 := by
  have e0 : cam.R 0 0 = cY * cP := by
    rw [hR]
    simp [rotation_matrix, Matrix.mul_apply, Fin.sum_univ_three,
      Matrix.vecHead, Matrix.vecTail]
  have e1 : cam.R 0 1 = -(sY * cR) + cY * sP * sR := by
    rw [hR]
    simp [rotation_matrix, Matrix.mul_apply, Fin.sum_univ_three,
      Matrix.vecHead, Matrix.vecTail]
  have e2 : cam.R 0 2 = sY * sR + cY * sP * cR := by
    rw [hR]
    simp [rotation_matrix, Matrix.mul_apply, Fin.sum_univ_three,
      Matrix.vecHead, Matrix.vecTail]
  have hnorm : cam.R 0 0 ^ 2 + cam.R 0 1 ^ 2 + cam.R 0 2 ^ 2 = 1 := by
    rw [e0, e1, e2]
    linear_combination (sY ^ 2 + cY ^ 2 * sP ^ 2) * h1 + cY ^ 2 * h2 + h3
  rw [withDepth_depth, withDepth_depth, camForward_eq, camForward_eq]
  have key : -(cam.R 0 0 * (x + s * cam.forwardAxis 0 - cam.t 0) +
        cam.R 0 1 * (y + s * cam.forwardAxis 1 - cam.t 1) +
        cam.R 0 2 * (z + s * cam.forwardAxis 2 - cam.t 2)) =
      -(cam.R 0 0 * (x - cam.t 0) + cam.R 0 1 * (y - cam.t 1) +
        cam.R 0 2 * (z - cam.t 2)) +
      s * (cam.R 0 0 ^ 2 + cam.R 0 1 ^ 2 + cam.R 0 2 ^ 2) := by
    unfold Tranceform3D2D.forwardAxis
    ring
  rw [key, hnorm]
  linarith

/-- C9 witness: at the identity pose, the point `(0,0,0)` displaced by
`s = 2` along the forward axis has strictly larger reported depth. -/
theorem C9_witness :
    idCam.R = rotation_matrix 1 0 2 * rotation_matrix 1 0 1 *
      rotation_matrix 1 0 0 ∧
    (1 : ℚ) ^ 2 + 0 ^ 2 = 1 ∧ (0 : ℚ) < 2 ∧
    (idCam.cvt_3d_to_2d_with_depth 0 0 0).2.2 <
    (idCam.cvt_3d_to_2d_with_depth (0 + 2 * idCam.forwardAxis 0)
      (0 + 2 * idCam.forwardAxis 1) (0 + 2 * idCam.forwardAxis 2)).2.2 :=
  ⟨rfl, by norm_num, by norm_num,
   C9_depth_strictly_increases_along_forward idCam 1 0 1 0 1 0 rfl
     (by norm_num) (by norm_num) (by norm_num) 0 0 0 2 (by norm_num)⟩

/-! ### C6 — near-plane segment clipping -/

/-- Depth is affine along the world-space interpolation of
`clip_line_to_screen`. -/
lemma depthAt_lerp3 (cam : Tranceform3D2D) (p1 p2 : ℚ × ℚ × ℚ) (t : ℚ) :
    cam.depthAt (lerp3 p1 p2 t) =
      cam.depthAt p1 + t * (cam.depthAt p2 - cam.depthAt p1) := by
  rw [depthAt_eq, depthAt_eq, depthAt_eq]
  show cam.camForward (p1.1 + t * (p2.1 - p1.1))
      (p1.2.1 + t * (p2.2.1 - p1.2.1)) (p1.2.2 + t * (p2.2.2 - p1.2.2)) = _
  rw [camForward_eq, camForward_eq, camForward_eq]
  ring

/-- The clamp of `clip_line_to_screen` lands in the `±10000` bound around
the image (image dimensions nonnegative). -/
lemma clampPairDef_bounds (w h : ℤ) (hw : 0 ≤ w) (hh : 0 ≤ h)
    (p : ℤ × ℤ) :
    -10000 ≤ (clampPairDef w h p).1 ∧ (clampPairDef w h p).1 ≤ w + 10000 ∧
    -10000 ≤ (clampPairDef w h p).2 ∧ (clampPairDef w h p).2 ≤ h + 10000 := by
  unfold clampPairDef pyClamp
  refine ⟨le_max_left _ _, ?_, le_max_left _ _, ?_⟩ <;>
    · apply max_le
      · omega
      · exact le_trans (min_le_left _ _) (le_refl _)

/-- C6: `clip_line_to_screen` discards a segment with both endpoints at
depth ≤ 0; with exactly one endpoint behind the camera it interpolates in
world space to the parameter `t` where depth crosses `0.1`, discards the
segment when `t` is not strictly between 0 and 1 (the code's extra
`|d1-d2| ≤ 0.001` early-out only fires when `t ≥ 1` or `t ≤ 0`, so it is
subsumed), and otherwise replaces only the behind-camera endpoint with the
projection of the interpolated point, whose depth is exactly `1/10`; both
returned endpoints are clamped into the `±10000`-pixel bound around the
image, so no returned endpoint ever comes from a negative-depth point. -/
theorem C6_clip_line_to_screen_spec (cam : Tranceform3D2D)
    (p1 p2 : ℚ × ℚ × ℚ) (w h : ℤ) (hw : 0 ≤ w) (hh : 0 ≤ h) :
    (cam.depthAt p1 ≤ 0 → cam.depthAt p2 ≤ 0 →
      cam.clip_line_to_screen p1 p2 w h = none) ∧
    (cam.depthAt p1 ≤ 0 → 0 < cam.depthAt p2 →
      ¬(0 < cam.clipT p1 p2 ∧ cam.clipT p1 p2 < 1) →
      cam.clip_line_to_screen p1 p2 w h = none) ∧
    (cam.depthAt p1 ≤ 0 → 0 < cam.depthAt p2 →
      0 < cam.clipT p1 p2 → cam.clipT p1 p2 < 1 →
      cam.clip_line_to_screen p1 p2 w h =
        some (clampPairDef w h (cam.screen2 (lerp3 p1 p2 (cam.clipT p1 p2))),
              clampPairDef w h (cam.screen2 p2)) ∧
      cam.depthAt (lerp3 p1 p2 (cam.clipT p1 p2)) = 1/10) ∧
    (0 < cam.depthAt p1 → cam.depthAt p2 ≤ 0 →
      ¬(0 < cam.clipT p1 p2 ∧ cam.clipT p1 p2 < 1) →
      cam.clip_line_to_screen p1 p2 w h = none) ∧
    (0 < cam.depthAt p1 → cam.depthAt p2 ≤ 0 →
      0 < cam.clipT p1 p2 → cam.clipT p1 p2 < 1 →
      cam.clip_line_to_screen p1 p2 w h =
        some (clampPairDef w h (cam.screen2 p1),
              clampPairDef w h (cam.screen2 (lerp3 p1 p2 (cam.clipT p1 p2)))) ∧
      cam.depthAt (lerp3 p1 p2 (cam.clipT p1 p2)) = 1/10) ∧
    (0 < cam.depthAt p1 → 0 < cam.depthAt p2 →
      cam.clip_line_to_screen p1 p2 w h =
        some (clampPairDef w h (cam.screen2 p1),
              clampPairDef w h (cam.screen2 p2))) ∧
    (∀ a b, cam.clip_line_to_screen p1 p2 w h = some (a, b) →
      (-10000 ≤ a.1 ∧ a.1 ≤ w + 10000 ∧ -10000 ≤ a.2 ∧ a.2 ≤ h + 10000) ∧
      (-10000 ≤ b.1 ∧ b.1 ≤ w + 10000 ∧ -10000 ≤ b.2 ∧ b.2 ≤ h + 10000)) := by
  have hlerp : cam.clipT p1 p2 * (cam.depthAt p2 - cam.depthAt p1) =
      1/10 - cam.depthAt p1 → cam.depthAt (lerp3 p1 p2 (cam.clipT p1 p2)) =
      1/10 := by
    intro hc
    rw [depthAt_lerp3, hc]
    ring
  unfold Tranceform3D2D.clip_line_to_screen
  dsimp only
  refine ⟨?_, ?_, ?_, ?_, ?_, ?_, ?_⟩
  · intro h1 h2
    rw [if_pos ⟨h1, h2⟩]
  · intro h1 h2 hnt
    rw [if_neg (fun hc => absurd hc.2 (not_le.mpr h2)), if_pos (Or.inl h1),
      if_pos h1]
    by_cases hg : 1/1000 < |cam.depthAt p1 - cam.depthAt p2|
    · rw [if_pos hg, if_neg hnt]
    · rw [if_neg hg]
  · intro h1 h2 ht1 ht2
    have hd : cam.depthAt p1 < cam.depthAt p2 := lt_of_le_of_lt h1 h2
    have hden : (0 : ℚ) < cam.depthAt p2 - cam.depthAt p1 := by linarith
    have hnum : 1/10 - cam.depthAt p1 < cam.depthAt p2 - cam.depthAt p1 := by
      have := (div_lt_one hden).mp ht2
      exact this
    have hg : 1/1000 < |cam.depthAt p1 - cam.depthAt p2| := by
      rw [abs_of_neg (by linarith : cam.depthAt p1 - cam.depthAt p2 < 0)]
      linarith
    rw [if_neg (fun hc => absurd hc.2 (not_le.mpr h2)), if_pos (Or.inl h1),
      if_pos h1, if_pos hg, if_pos ⟨ht1, ht2⟩]
    refine ⟨rfl, hlerp ?_⟩
    rw [Tranceform3D2D.clipT, div_mul_cancel₀ _ (ne_of_gt hden)]
  · intro h1 h2 hnt
    rw [if_neg (fun hc => absurd hc.1 (not_le.mpr h1)), if_pos (Or.inr h2),
      if_neg (not_le.mpr h1)]
    by_cases hg : 1/1000 < |cam.depthAt p1 - cam.depthAt p2|
    · rw [if_pos hg, if_neg hnt]
    · rw [if_neg hg]
  · intro h1 h2 ht1 ht2
    have hd : cam.depthAt p2 < cam.depthAt p1 := lt_of_le_of_lt h2 h1
    have hden : cam.depthAt p2 - cam.depthAt p1 < 0 := by linarith
    have hnum : 1/10 - cam.depthAt p1 < 0 := by
      by_contra hc
      push_neg at hc
      have : cam.clipT p1 p2 ≤ 0 := div_nonpos_of_nonneg_of_nonpos hc
        (le_of_lt hden)
      linarith
    have hg : 1/1000 < |cam.depthAt p1 - cam.depthAt p2| := by
      rw [abs_of_pos (by linarith : 0 < cam.depthAt p1 - cam.depthAt p2)]
      linarith
    rw [if_neg (fun hc => absurd hc.1 (not_le.mpr h1)), if_pos (Or.inr h2),
      if_neg (not_le.mpr h1), if_pos hg, if_pos ⟨ht1, ht2⟩]
    refine ⟨rfl, hlerp ?_⟩
    rw [Tranceform3D2D.clipT, div_mul_cancel₀ _ (ne_of_lt hden)]
  · intro h1 h2
    rw [if_neg (fun hc => absurd hc.1 (not_le.mpr h1)),
      if_neg (fun hc => hc.elim (not_le.mpr h1) (not_le.mpr h2))]
  · intro a b hab
    split_ifs at hab
    all_goals
      first
      | exact Option.noConfusion hab
      | (injection hab with hab2
         injection hab2 with ha hb
         subst ha
         subst hb
         exact ⟨clampPairDef_bounds w h hw hh _,
           clampPairDef_bounds w h hw hh _⟩)

/-- C6 witness: the spec's own scenario — at the identity camera,
`p1 = (-1,0,0)` has depth `+1` and `p2 = (1,0,0)` depth `-1`; `t = 9/20`
lies in `(0,1)`, the behind-camera endpoint is replaced by the projection
of the interpolated point, and that point's depth is exactly `1/10`. -/
theorem C6_witness :
    (0 : ℤ) ≤ 640 ∧ (0 : ℤ) ≤ 480 ∧
    0 < idCam.depthAt (-1, 0, 0) ∧ idCam.depthAt (1, 0, 0) ≤ 0 ∧
    0 < idCam.clipT (-1, 0, 0) (1, 0, 0) ∧
    idCam.clipT (-1, 0, 0) (1, 0, 0) < 1 ∧
    (idCam.clip_line_to_screen (-1, 0, 0) (1, 0, 0) 640 480 =
      some (clampPairDef 640 480 (idCam.screen2 (-1, 0, 0)),
            clampPairDef 640 480 (idCam.screen2 (lerp3 (-1, 0, 0) (1, 0, 0)
              (idCam.clipT (-1, 0, 0) (1, 0, 0))))) ∧
     idCam.depthAt (lerp3 (-1, 0, 0) (1, 0, 0)
       (idCam.clipT (-1, 0, 0) (1, 0, 0))) = 1/10) :=
  ⟨by norm_num, by norm_num,
   by rw [depthAt_eq, idCam_camForward]; norm_num,
   by rw [depthAt_eq, idCam_camForward]; norm_num,
   by simp [Tranceform3D2D.clipT, depthAt_eq, idCam_camForward]; norm_num,
   by simp [Tranceform3D2D.clipT, depthAt_eq, idCam_camForward]; norm_num,
   (C6_clip_line_to_screen_spec idCam (-1, 0, 0) (1, 0, 0) 640 480
      (by norm_num) (by norm_num)).2.2.2.2.1
     (by rw [depthAt_eq, idCam_camForward]; norm_num)
     (by rw [depthAt_eq, idCam_camForward]; norm_num)
     (by simp [Tranceform3D2D.clipT, depthAt_eq, idCam_camForward]; norm_num)
     (by simp [Tranceform3D2D.clipT, depthAt_eq, idCam_camForward]; norm_num)⟩

/-! ### C5 — nearest-hit furniture picking -/

/-- Membership in the depth-filtered list built by
`find_furniture_at_point`. -/
lemma mem_withDepth_iff (furnitures : List Furniture)
    (cam : Tranceform3D2D) (fd : Furniture × ℚ) :
    fd ∈ (furnitures.filterMap fun f =>
        if 0 < f.pickDepth cam then some (f, f.pickDepth cam) else none) ↔
      fd.1 ∈ furnitures ∧ fd.2 = fd.1.pickDepth cam ∧ 0 < fd.2 := by
  rw [List.mem_filterMap]
  constructor
  · rintro ⟨f, hf, hval⟩
    split_ifs at hval with hd
    · injection hval with h1
      rw [← h1]
      exact ⟨hf, rfl, hd⟩
  · rintro ⟨hmem, hdep, hpos⟩
    refine ⟨fd.1, hmem, ?_⟩
    rw [if_pos (hdep ▸ hpos), ← hdep]

/-- `find?` over a list sorted ascending by depth returns an element of
minimal depth among those satisfying the predicate. -/
lemma find?_sorted_minimal (l : List (Furniture × ℚ))
    (p : Furniture × ℚ → Bool) (hs : l.Sorted depthLE)
    (fd : Furniture × ℚ) (hfind : l.find? p = some fd)
    (gd : Furniture × ℚ) (hg : gd ∈ l) (hp : p gd = true) :
    fd.2 ≤ gd.2 := by
  induction l with
  | nil => cases hfind
  | cons a tl ih =>
    obtain ⟨ha, hs'⟩ := List.pairwise_cons.mp hs
    rcases hpa : p a with _ | _
    · rw [List.find?_cons_of_neg _ (by simp [hpa])] at hfind
      rcases List.mem_cons.mp hg with rfl | hg'
      · rw [hp] at hpa
        cases hpa
      · exact ih hs' hfind hg'
    · rw [List.find?_cons_of_pos _ hpa] at hfind
      injection hfind with h1
      subst h1
      rcases List.mem_cons.mp hg with rfl | hg'
      · exact le_refl _
      · exact ha gd hg'

/-- C5: `find_furniture_at_point` returns `None` exactly when no furniture
with positive pick-center depth contains the screen point; a returned
furniture is a positive-depth hit of minimal depth (nearest-first
examination); and a furniture with fewer than 4 individually visible floor
vertices is never returned (`is_point_inside_2d` requires all 4). -/
theorem C5_find_furniture_nearest_hit (furnitures : List Furniture)
    (px py : ℤ) (cam : Tranceform3D2D) (w h : ℤ) :
    (find_furniture_at_point furnitures px py cam w h = none ↔
      ∀ f ∈ furnitures, 0 < f.pickDepth cam →
        f.is_point_inside_2d px py cam w h = false) ∧
    (∀ f, find_furniture_at_point furnitures px py cam w h = some f →
      f ∈ furnitures ∧ 0 < f.pickDepth cam ∧
      f.is_point_inside_2d px py cam w h = true ∧
      ∀ g ∈ furnitures, 0 < g.pickDepth cam →
        g.is_point_inside_2d px py cam w h = true →
        f.pickDepth cam ≤ g.pickDepth cam) ∧
    (∀ f ∈ furnitures, (f.floor_vertices_2d cam w h).length < 4 →
      find_furniture_at_point furnitures px py cam w h ≠ some f) := by
  set wd := furnitures.filterMap fun f =>
    if 0 < f.pickDepth cam then some (f, f.pickDepth cam) else none with hwd
  set srt := wd.insertionSort depthLE with hsrt
  have hperm : ∀ fd : Furniture × ℚ, fd ∈ srt ↔ fd ∈ wd := fun fd =>
    (List.perm_insertionSort depthLE wd).mem_iff
  have hsorted : srt.Sorted depthLE := List.sorted_insertionSort depthLE wd
  have hfind_eq : find_furniture_at_point furnitures px py cam w h =
      (srt.find? fun fd =>
        fd.1.is_point_inside_2d px py cam w h).map Prod.fst := rfl
  have main2 : ∀ f, find_furniture_at_point furnitures px py cam w h =
      some f → f ∈ furnitures ∧ 0 < f.pickDepth cam ∧
      f.is_point_inside_2d px py cam w h = true ∧
      ∀ g ∈ furnitures, 0 < g.pickDepth cam →
        g.is_point_inside_2d px py cam w h = true →
        f.pickDepth cam ≤ g.pickDepth cam := by
    intro f hf
    rw [hfind_eq] at hf
    obtain ⟨fd, hfd, hfst⟩ := Option.map_eq_some'.mp hf
    have hmem : fd ∈ srt := List.mem_of_find?_eq_some hfd
    have hpd0 := List.find?_some hfd
    have hpd : fd.1.is_point_inside_2d px py cam w h = true := by
      simpa using hpd0
    obtain ⟨hmem', hdep, hpos⟩ := (mem_withDepth_iff furnitures cam fd).mp
      ((hperm fd).mp hmem)
    subst hfst
    refine ⟨hmem', hdep ▸ hpos, hpd, ?_⟩
    intro g hg hgpos hghit
    have hgmem : (g, g.pickDepth cam) ∈ srt :=
      (hperm _).mpr ((mem_withDepth_iff furnitures cam _).mpr
        ⟨hg, rfl, hgpos⟩)
    have := find?_sorted_minimal srt _ hsorted fd hfd (g, g.pickDepth cam)
      hgmem (by simpa using hghit)
    calc fd.1.pickDepth cam = fd.2 := hdep.symm
      _ ≤ g.pickDepth cam := this
  refine ⟨?_, main2, ?_⟩
  · rw [hfind_eq, Option.map_eq_none']
    rw [List.find?_eq_none]
    constructor
    · intro hnone f hf hpos
      have : (f, f.pickDepth cam) ∈ srt :=
        (hperm _).mpr ((mem_withDepth_iff furnitures cam _).mpr
          ⟨hf, rfl, hpos⟩)
      have := hnone _ this
      simpa using this
    · intro hall fd hfd
      obtain ⟨hmem', hdep, hpos⟩ := (mem_withDepth_iff furnitures cam fd).mp
        ((hperm fd).mp hfd)
      simp [hall fd.1 hmem' (hdep ▸ hpos)]
  · intro f hf hlen hsome
    obtain ⟨_, _, hinside, _⟩ := main2 f hsome
    rw [Furniture.is_point_inside_2d, if_neg (by omega)] at hinside
    cases hinside

/-- Camera for the C5 witness: focal lengths 60, principal point `(0,0)`,
identity rotation, positioned at `(0, 0, 3)` (3 units above the floor). -/
def c5Cam : Tranceform3D2D :=
  (Tranceform3D2D.init 60 60 0 0).set_external_parameter 1 0 1 0 1 0 0 0 3

lemma c5Cam_R : c5Cam.R = 1 := idCam_R

lemma c5Cam_t : c5Cam.t = ![0, 0, 3] := rfl

lemma c5Cam_fx : c5Cam.fx = 60 := rfl

lemma c5Cam_fy : c5Cam.fy = 60 := rfl

lemma c5Cam_cx : c5Cam.cx = 0 := rfl

lemma c5Cam_cy : c5Cam.cy = 0 := rfl

lemma c5_camForward (x y z : ℚ) : c5Cam.camForward x y z = -x := by
  rw [camForward_eq, c5Cam_R, c5Cam_t]
  simp [Matrix.one_apply]

lemma c5_camRight (x y z : ℚ) : c5Cam.camRight x y z = y := by
  rw [camRight_eq, c5Cam_R, c5Cam_t]
  simp [Matrix.one_apply]

lemma c5_camDown (x y z : ℚ) : c5Cam.camDown x y z = 3 - z := by
  rw [camDown_eq, c5Cam_R, c5Cam_t]
  simp [Matrix.one_apply]

lemma c5_project2d (x y z : ℚ) :
    c5Cam.project2d x y z =
      (pyTrunc (60 * y / -x), pyTrunc (60 * (3 - z) / -x)) := by
  unfold Tranceform3D2D.project2d
  rw [c5_camForward, c5_camRight, c5_camDown, c5Cam_fx, c5Cam_fy, c5Cam_cx,
    c5Cam_cy]
  simp

lemma c5_withDepth (x y z : ℚ) (hx : x < 0) :
    c5Cam.cvt_3d_to_2d_with_depth x y z =
      (pyTrunc (60 * y / -x), pyTrunc (60 * (3 - z) / -x), -x) := by
  unfold Tranceform3D2D.cvt_3d_to_2d_with_depth
  rw [if_pos (by rw [c5_camForward]; linarith), c5_project2d,
    c5_camForward]

/-- Furniture for the C5 witness: a 2×1×2 box with floor corners
`(-6,-1)`, `(-4,-1)`, `(-4,1)`, `(-6,1)`, wholly in front of `c5Cam`. -/
def c5F : Furniture := ⟨-6, -1, 0, 2, 1, 2⟩

lemma c5_wd0 : c5Cam.cvt_3d_to_2d_with_depth (-6) (-1) 0 = (-10, 30, 6) := by
  rw [c5_withDepth _ _ _ (by norm_num)]
  norm_num [pyTrunc]

lemma c5_wd1 : c5Cam.cvt_3d_to_2d_with_depth (-4) (-1) 0 = (-15, 45, 4) := by
  rw [c5_withDepth _ _ _ (by norm_num)]
  norm_num [pyTrunc]

lemma c5_wd2 : c5Cam.cvt_3d_to_2d_with_depth (-4) 1 0 = (15, 45, 4) := by
  rw [c5_withDepth _ _ _ (by norm_num)]
  norm_num [pyTrunc]

lemma c5_wd3 : c5Cam.cvt_3d_to_2d_with_depth (-6) 1 0 = (10, 30, 6) := by
  rw [c5_withDepth _ _ _ (by norm_num)]
  norm_num [pyTrunc]

lemma c5_vis0 : c5Cam.is_point_visible (-6) (-1) 0 640 480 = true := by
  unfold Tranceform3D2D.is_point_visible
  rw [c5_wd0]
  norm_num

lemma c5_vis1 : c5Cam.is_point_visible (-4) (-1) 0 640 480 = true := by
  unfold Tranceform3D2D.is_point_visible
  rw [c5_wd1]
  norm_num

lemma c5_vis2 : c5Cam.is_point_visible (-4) 1 0 640 480 = true := by
  unfold Tranceform3D2D.is_point_visible
  rw [c5_wd2]
  norm_num

lemma c5_vis3 : c5Cam.is_point_visible (-6) 1 0 640 480 = true := by
  unfold Tranceform3D2D.is_point_visible
  rw [c5_wd3]
  norm_num

lemma c5_verts : c5F.get_vertices.take 4 =
    [((-6 : ℚ), ((-1 : ℚ), (0 : ℚ))), (-4, -1, 0), (-4, 1, 0),
     (-6, 1, 0)] := by
  unfold Furniture.get_vertices
  norm_num [c5F]

lemma c5_floor : c5F.floor_vertices_2d c5Cam 640 480 =
    [(-10, 30), (-15, 45), (15, 45), (10, 30)] := by
  unfold Furniture.floor_vertices_2d
  rw [c5_verts]
  simp only [List.filterMap_cons, List.filterMap_nil, c5_vis0, c5_vis1,
    c5_vis2, c5_vis3, if_true, c5_project2d]
  norm_num
  decide

lemma c5_pickDepth : c5F.pickDepth c5Cam = 5 := by
  unfold Furniture.pickDepth Furniture.pickCenter
  rw [withDepth_depth, c5_camForward]
  norm_num [c5F]

lemma c5_inside : c5F.is_point_inside_2d 0 35 c5Cam 640 480 = true := by
  unfold Furniture.is_point_inside_2d
  rw [c5_floor]
  norm_num [point_in_polygon, List.rotate, pipStep]

lemma c5_find : find_furniture_at_point [c5F] 0 35 c5Cam 640 480 =
    some c5F := by
  unfold find_furniture_at_point
  dsimp only
  simp only [List.filterMap_cons, List.filterMap_nil, c5_pickDepth]
  norm_num
  simp [List.insertionSort, List.orderedInsert, List.find?, c5_inside]

/-- C5 witness: the single-furniture scene `[c5F]` at screen point
`(0, 35)`: the furniture is found, and the theorem's characterization
(membership, positive depth, polygon hit, minimality) holds for it. -/
theorem C5_witness :
    find_furniture_at_point [c5F] 0 35 c5Cam 640 480 = some c5F ∧
    c5F ∈ [c5F] ∧ 0 < c5F.pickDepth c5Cam ∧
    c5F.is_point_inside_2d 0 35 c5Cam 640 480 = true ∧
    ∀ g ∈ [c5F], 0 < g.pickDepth c5Cam →
      g.is_point_inside_2d 0 35 c5Cam 640 480 = true →
      c5F.pickDepth c5Cam ≤ g.pickDepth c5Cam := by
  obtain ⟨h1, h2, h3, h4⟩ :=
    (C5_find_furniture_nearest_hit [c5F] 0 35 c5Cam 640 480).2.1 c5F c5_find
  exact ⟨c5_find, h1, h2, h3, h4⟩

/-! ### C4 — back-face cull conventions -/

/-- Room used by the C4 theorems: width 2, depth 4, height 3. -/
def c4Room : Room := ⟨2, 4, 3⟩

/-- Camera used by the C4 room counterexample: identity rotation at
`(10, 0, 3)`, in the plane of the room's left wall (`y = 0`). -/
def camRoom : Tranceform3D2D :=
  (Tranceform3D2D.init 60 60 0 0).set_external_parameter 1 0 1 0 1 0 10 0 3

lemma camRoom_R : camRoom.R = 1 := idCam_R

lemma camRoom_t : camRoom.t = ![10, 0, 3] := rfl

lemma camRoom_camForward (x y z : ℚ) : camRoom.camForward x y z = 10 - x := by
  rw [camForward_eq, camRoom_R, camRoom_t]
  simp [Matrix.one_apply]

lemma c4_centerF : faceCenter c5F.get_vertices [2, 3, 7, 6] =
    (-5, 1, 1/2) := by
  norm_num [faceCenter, Furniture.get_vertices, c5F, List.getD]

lemma c4_centerR : faceCenter c4Room.vertices [0, 4, 5, 1] =
    (2, 0, 3/2) := by
  norm_num [faceCenter, Room.vertices, c4Room, List.getD]

/-- C4 counterexample: the cull rule stated by the claim fails on both
primitives.  Furniture: the face `[2,3,7,6]` (outward normal `(1,0,0)`) of
`c5F` has `normal · (centroid - camera) = -5 ≤ 0`, yet `Furniture.draw`
keeps it (culling is disabled in the source; only centroid depth `5 > 0`
is checked).  Room: the left wall `[0,4,5,1]` (inward normal `(0,-1,0)`)
seen from `camRoom` has dot product exactly `0`, not `< -0.01`, yet
`Room.draw` keeps it (the code keeps `dot ≤ 0.01`). -/
theorem C4_counterexample :
    (dot3 (1, 0, 0)
        (sub3 (faceCenter c5F.get_vertices [2, 3, 7, 6])
          c5Cam.get_camera_position) ≤ 0 ∧
      ([2, 3, 7, 6], (5 : ℚ)) ∈ c5F.faces_with_depth c5Cam) ∧
    (¬(dot3 (0, -1, 0)
        (sub3 (faceCenter c4Room.vertices [0, 4, 5, 1])
          camRoom.get_camera_position) < -(1/100)) ∧
      ([0, 4, 5, 1], (8 : ℚ)) ∈ c4Room.faces_with_depth camRoom) := by
  refine ⟨⟨?_, ?_⟩, ?_, ?_⟩
  · rw [c4_centerF]
    norm_num [dot3, sub3, Tranceform3D2D.get_camera_position, c5Cam_t]
  · refine List.mem_filterMap.mpr ⟨([2, 3, 7, 6], (1, 0, 0)), ?_, ?_⟩
    · simp [Furniture.get_faces]
    · dsimp only
      rw [c4_centerF, depthAt_eq]
      rw [show ((-5 : ℚ), (1 : ℚ), (1/2 : ℚ)).1 = -5 from rfl]
      norm_num [c5_camForward]
  · rw [c4_centerR]
    norm_num [dot3, sub3, Tranceform3D2D.get_camera_position, camRoom_t]
  · refine List.mem_filterMap.mpr ⟨([0, 4, 5, 1], (0, -1, 0)), ?_, ?_⟩
    · simp [room_faces]
    · dsimp only
      rw [c4_centerR]
      rw [if_neg (by
        norm_num [dot3, sub3, Tranceform3D2D.get_camera_position, camRoom_t])]
      rw [depthAt_eq]
      norm_num [camRoom_camForward]

/-- Distinct entries of `room_faces` never share an index list, so the
normal is determined by it. -/
lemma room_faces_normal_unique {i : List ℕ} {a b : ℚ × ℚ × ℚ}
    (ha : (i, a) ∈ room_faces) (hb : (i, b) ∈ room_faces) : a = b := by
  simp only [room_faces, List.mem_cons, List.not_mem_nil, or_false] at ha hb
  rcases ha with h|h|h|h|h|h <;> rcases hb with g|g|g|g|g|g <;>
    · injection h with h1 h2
      injection g with g1 g2
      subst h2
      subst g2
      first
        | rfl
        | exact absurd (h1.symm.trans g1) (by decide)

/-- C4 (amended): the implemented cull tests are — furniture: no cull at
all, a face survives `Furniture.draw`'s filter iff its centroid depth is
positive, whatever the dot product; room: a face survives `Room.draw`'s
filter iff `normal · (centroid - camera position) ≤ 0.01` (the code skips
on `dot > 0.01`, so grazing faces with `-0.01 < dot ≤ 0.01` are kept, not
skipped) and its centroid depth is positive. -/
theorem C4_cull_tests_amended (cam : Tranceform3D2D) (f : Furniture)
    (r : Room) :
    (∀ idxs n, (idxs, n) ∈ f.get_faces →
      ((idxs, cam.depthAt (faceCenter f.get_vertices idxs)) ∈
          f.faces_with_depth cam ↔
        0 < cam.depthAt (faceCenter f.get_vertices idxs))) ∧
    (∀ idxs n, (idxs, n) ∈ room_faces →
      ((idxs, cam.depthAt (faceCenter r.vertices idxs)) ∈
          r.faces_with_depth cam ↔
        dot3 n (sub3 (faceCenter r.vertices idxs)
          cam.get_camera_position) ≤ 1/100 ∧
        0 < cam.depthAt (faceCenter r.vertices idxs))) := by
  constructor
  · intro idxs n hmem
    constructor
    · intro hkept
      obtain ⟨⟨idxs', n'⟩, _, heq⟩ := List.mem_filterMap.mp hkept
      dsimp only at heq
      split_ifs at heq with hd
      · injection heq with h1
        injection h1 with hi hd2
        subst hi
        exact hd
    · intro hd
      exact List.mem_filterMap.mpr ⟨(idxs, n), hmem, by
        dsimp only
        rw [if_pos hd]⟩
  · intro idxs n hmem
    constructor
    · intro hkept
      obtain ⟨⟨idxs', n'⟩, hmem', heq⟩ := List.mem_filterMap.mp hkept
      dsimp only at heq
      split_ifs at heq with hdot hd
      · injection heq with h1
        injection h1 with hi hd2
        subst hi
        have hn : n' = n := room_faces_normal_unique hmem' hmem
        subst hn
        exact ⟨not_lt.mp hdot, hd⟩
    · rintro ⟨hdot, hd⟩
      exact List.mem_filterMap.mpr ⟨(idxs, n), hmem, by
        dsimp only
        rw [if_neg (not_lt.mpr hdot), if_pos hd]⟩

/-- C4 witness: the top face of `c5F` (centroid depth `5 > 0`) is kept by
the furniture filter, and the floor of `c4Room` seen from `camRoom`
(dot `-3 ≤ 0.01`, centroid depth `8 > 0`) is kept by the room filter. -/
theorem C4_witness :
    (([4, 5, 6, 7], ((0 : ℚ), (0 : ℚ), (1 : ℚ))) ∈ c5F.get_faces ∧
      0 < c5Cam.depthAt (faceCenter c5F.get_vertices [4, 5, 6, 7]) ∧
      ([4, 5, 6, 7], c5Cam.depthAt (faceCenter c5F.get_vertices [4, 5, 6, 7]))
        ∈ c5F.faces_with_depth c5Cam) ∧
    (([0, 1, 2, 3], ((0 : ℚ), (0 : ℚ), (1 : ℚ))) ∈ room_faces ∧
      dot3 ((0 : ℚ), (0 : ℚ), (1 : ℚ))
        (sub3 (faceCenter c4Room.vertices [0, 1, 2, 3])
          camRoom.get_camera_position) ≤ 1/100 ∧
      0 < camRoom.depthAt (faceCenter c4Room.vertices [0, 1, 2, 3]) ∧
      ([0, 1, 2, 3], camRoom.depthAt (faceCenter c4Room.vertices [0, 1, 2, 3]))
        ∈ c4Room.faces_with_depth camRoom) := by
  have hcF : faceCenter c5F.get_vertices [4, 5, 6, 7] = (-5, 0, 1) := by
    norm_num [faceCenter, Furniture.get_vertices, c5F, List.getD]
  have hcR : faceCenter c4Room.vertices [0, 1, 2, 3] = (2, 1, 0) := by
    norm_num [faceCenter, Room.vertices, c4Room, List.getD]
  have hmemF : ([4, 5, 6, 7], ((0 : ℚ), (0 : ℚ), (1 : ℚ))) ∈
      c5F.get_faces := by simp [Furniture.get_faces]
  have hmemR : ([0, 1, 2, 3], ((0 : ℚ), (0 : ℚ), (1 : ℚ))) ∈ room_faces := by
    simp [room_faces]
  have hdF : 0 < c5Cam.depthAt (faceCenter c5F.get_vertices [4, 5, 6, 7]) := by
    rw [hcF, depthAt_eq]
    norm_num [c5_camForward]
  have hdR : 0 < camRoom.depthAt (faceCenter c4Room.vertices [0, 1, 2, 3]) := by
    rw [hcR, depthAt_eq]
    norm_num [camRoom_camForward]
  have hdotR : dot3 ((0 : ℚ), (0 : ℚ), (1 : ℚ))
      (sub3 (faceCenter c4Room.vertices [0, 1, 2, 3])
        camRoom.get_camera_position) ≤ 1/100 := by
    rw [hcR]
    norm_num [dot3, sub3, Tranceform3D2D.get_camera_position, camRoom_t]
  exact ⟨⟨hmemF, hdF,
      ((C4_cull_tests_amended c5Cam c5F c4Room).1 _ _ hmemF).mpr hdF⟩,
    ⟨hmemR, hdotR, hdR,
      ((C4_cull_tests_amended camRoom c5F c4Room).2 _ _ hmemR).mpr
        ⟨hdotR, hdR⟩⟩⟩

/-! ### C2 — parallel renderer vs. sequential painter's algorithm -/

/-- A chunk paints pixel `p` when some furniture in it covers `p`. -/
def paints {Pix : Type} (c : List (PaintSpec Pix)) (p : Pix) : Prop :=
  ∃ f ∈ c, f.region p = true

/-- Two chunks paint disjoint pixel sets. -/
def pixelDisjoint {Pix : Type} (c1 c2 : List (PaintSpec Pix)) : Prop :=
  ∀ p, paints c1 p → ¬paints c2 p

/-- Base image of the C2 counterexample: every pixel has colour 0. -/
def c2Base : Fin 1 → ℕ := fun _ => 0

/-- The farther box of the C2 counterexample: paints the pixel colour 1. -/
def c2Far : PaintSpec (Fin 1) := ⟨fun _ => true, fun _ => 1⟩

/-- The nearer box of the C2 counterexample: paints the pixel with the
base image's colour 0 (e.g. a box whose face colour matches the
background). -/
def c2Near : PaintSpec (Fin 1) := ⟨fun _ => true, fun _ => 0⟩

/-- C2 counterexample: two overlapping boxes, depth-sorted farthest-first
`[c2Far, c2Near]`, two chunks (`chunk_size = max(1, 2 // 2) = 1`).
Sequentially the nearer box's pixel (colour 0) wins; in the parallel path
the nearer chunk's copy is identical to the pristine image at that pixel,
so the diff-merge keeps the farther chunk's pixel (colour 1) — whichever
order `as_completed` yields the two chunk results in.  The composite is
not pixel-identical to the sequential image, and the nearer box's pixel is
obstructed. -/
theorem C2_counterexample :
    chunkize 2 [c2Far, c2Near] = [[c2Far], [c2Near]] ∧
    sequentialRender c2Base [c2Far, c2Near] 0 = 0 ∧
    render_furnitures_parallel c2Base [c2Far, c2Near] 2
      [[c2Far], [c2Near]] 0 = 1 ∧
    render_furnitures_parallel c2Base [c2Far, c2Near] 2
      [[c2Near], [c2Far]] 0 = 1 :=
  ⟨rfl, rfl, rfl, rfl⟩

/-- Pointwise value of the drawing fold (proof infrastructure: drawing is
pixelwise, so folds over furniture lists restrict to each pixel). -/
def pixFold {Pix : Type} (v : ℕ) (c : List (PaintSpec Pix)) (p : Pix) : ℕ :=
  c.foldl (fun v f => if f.region p then f.color p else v) v

lemma pixFold_cons {Pix : Type} (v : ℕ) (f : PaintSpec Pix)
    (c : List (PaintSpec Pix)) (p : Pix) :
    pixFold v (f :: c) p =
      pixFold (if f.region p then f.color p else v) c p := rfl

lemma renderChunk_pointwise {Pix : Type} (img : Pix → ℕ)
    (c : List (PaintSpec Pix)) (p : Pix) :
    renderChunk img c p = pixFold (img p) c p := by
  induction c generalizing img with
  | nil => rfl
  | cons f tl ih =>
    show renderChunk (drawPaint f img) tl p = _
    rw [ih (drawPaint f img)]
    rfl

lemma pixFold_not_painted {Pix : Type} {c : List (PaintSpec Pix)} {p : Pix}
    (h : ¬paints c p) : ∀ v, pixFold v c p = v := by
  induction c with
  | nil => intro v; rfl
  | cons f tl ih =>
    intro v
    have hf : ¬(f.region p = true) := fun hr => h ⟨f, by simp, hr⟩
    rw [pixFold_cons, if_neg hf]
    exact ih (fun ⟨g, hg, hr⟩ => h ⟨g, by simp [hg], hr⟩) v

lemma pixFold_append {Pix : Type} (v : ℕ) (c1 c2 : List (PaintSpec Pix))
    (p : Pix) :
    pixFold v (c1 ++ c2) p = pixFold (pixFold v c1 p) c2 p := by
  unfold pixFold
  rw [List.foldl_append]

lemma flatten_chunksAux {α : Type} (cs fuel : ℕ) :
    ∀ l : List α, (chunksAux cs fuel l).flatten = l := by
  induction fuel with
  | zero =>
    intro l
    cases l <;> simp [chunksAux]
  | succ n ih =>
    intro l
    cases l with
    | nil => simp [chunksAux]
    | cons x xs =>
      show (List.take cs (x :: xs) ::
        chunksAux cs n (List.drop cs (x :: xs))).flatten = x :: xs
      rw [List.flatten_cons, ih, List.take_append_drop]

lemma chunkize_flatten {α : Type} (n : ℕ) (l : List α) :
    (chunkize n l).flatten = l :=
  flatten_chunksAux _ _ l

/-- Pointwise value of the diff-merge fold. -/
def mfold (b : ℕ) (vals : List ℕ) (a : ℕ) : ℕ :=
  vals.foldl (fun v c => if c ≠ b then c else v) a

lemma mergeDiff_pointwise {Pix : Type} (base : Pix → ℕ)
    (imgs : List (Pix → ℕ)) (init : Pix → ℕ) (p : Pix) :
    mergeDiff base imgs init p =
      mfold (base p) (imgs.map (fun i => i p)) (init p) := by
  induction imgs generalizing init with
  | nil => rfl
  | cons i tl ih =>
    show mergeDiff base tl (fun q => if i q ≠ base q then i q else init q) p
      = _
    rw [ih]
    rfl

lemma mfold_all_base (b : ℕ) : ∀ (vals : List ℕ) (a : ℕ),
    (∀ v ∈ vals, v = b) → mfold b vals a = a := by
  intro vals
  induction vals with
  | nil => intro a _; rfl
  | cons v tl ih =>
    intro a hall
    show mfold b tl (if v ≠ b then v else a) = a
    rw [if_neg (by simp [hall v (by simp)])]
    exact ih a (fun w hw => hall w (by simp [hw]))

lemma mfold_stays (b v₀ : ℕ) : ∀ vals : List ℕ,
    (∀ v ∈ vals, v = b ∨ v = v₀) → mfold b vals v₀ = v₀ := by
  intro vals
  induction vals with
  | nil => intro _; rfl
  | cons v tl ih =>
    intro hall
    show mfold b tl (if v ≠ b then v else v₀) = v₀
    have htl : ∀ w ∈ tl, w = b ∨ w = v₀ :=
      fun w hw => hall w (by simp [hw])
    rcases hall v (by simp) with hv | hv
    · rw [if_neg (by simp [hv])]
      exact ih htl
    · have : (if v ≠ b then v else v₀) = v₀ := by
        split_ifs <;> simp [hv]
      rw [this]
      exact ih htl

lemma mfold_reaches (b v₀ : ℕ) (hne : v₀ ≠ b) : ∀ vals : List ℕ,
    (∀ v ∈ vals, v = b ∨ v = v₀) → v₀ ∈ vals → mfold b vals b = v₀ := by
  intro vals
  induction vals with
  | nil =>
    intro _ hmem
    cases hmem
  | cons v tl ih =>
    intro hall hmem
    show mfold b tl (if v ≠ b then v else b) = v₀
    have htl : ∀ w ∈ tl, w = b ∨ w = v₀ :=
      fun w hw => hall w (by simp [hw])
    rcases hall v (by simp) with hv | hv
    · rw [if_neg (by simp [hv])]
      have hmem' : v₀ ∈ tl := by
        rcases List.mem_cons.mp hmem with h | h
        · exact absurd (h.trans hv) hne
        · exact h
      exact ih htl hmem'
    · rw [if_pos (by simp [hv, hne]), hv]
      exact mfold_stays b v₀ tl htl

lemma pixelDisjoint_symm {Pix : Type} :
    Symmetric (@pixelDisjoint Pix) :=
  fun _ _ h q hq2 hq1 => h q hq1 hq2

lemma pixFold_join_single {Pix : Type} (p : Pix) :
    ∀ chunks : List (List (PaintSpec Pix)), chunks.Pairwise pixelDisjoint →
    ∀ c₀ ∈ chunks, paints c₀ p →
    ∀ v, pixFold v chunks.flatten p = pixFold v c₀ p := by
  intro chunks
  induction chunks with
  | nil =>
    intro _ c₀ hc₀
    cases hc₀
  | cons c tl ih =>
    intro hpw c₀ hc₀ hp₀ v
    obtain ⟨hhead, htl⟩ := List.pairwise_cons.mp hpw
    rw [List.flatten_cons, pixFold_append]
    rcases List.mem_cons.mp hc₀ with rfl | hmem
    · have hnp : ¬paints tl.flatten p := by
        rintro ⟨f, hf, hr⟩
        obtain ⟨c', hc', hfc'⟩ := List.mem_flatten.mp hf
        exact hhead c' hc' p hp₀ ⟨f, hfc', hr⟩
      rw [pixFold_not_painted hnp]
    · have hnc : ¬paints c p := fun hpc => hhead c₀ hmem p hpc hp₀
      rw [pixFold_not_painted hnc]
      exact ih htl c₀ hmem hp₀ v

/-- C2 (amended): the pixel-diff merge of `render_furnitures_parallel` is
pixel-identical to drawing the depth-sorted list sequentially
farthest-first whenever the chunks of the partition paint pairwise
disjoint pixel sets — and this holds for every completion order of
`as_completed`.  (Without disjointness the counterexample shows the
composite can differ and obstruct the nearer box.) -/
theorem C2_parallel_merge_correct_when_disjoint {Pix : Type}
    (img : Pix → ℕ) (l : List (PaintSpec Pix)) (n : ℕ)
    (order : List (List (PaintSpec Pix)))
    (hperm : order.Perm (chunkize n l))
    (hdisj : (chunkize n l).Pairwise pixelDisjoint) :
    ∀ p, render_furnitures_parallel img l n order p =
      sequentialRender img l p := by
  intro p
  have hseq : sequentialRender img l p =
      pixFold (img p) (chunkize n l).flatten p := by
    conv =>
      rw [chunkize_flatten]
    exact renderChunk_pointwise img l p
  unfold render_furnitures_parallel
  rw [mergeDiff_pointwise]
  by_cases hex : ∃ c ∈ chunkize n l, paints c p
  · obtain ⟨c₀, hc₀, hp₀⟩ := hex
    have hseq2 : sequentialRender img l p = pixFold (img p) c₀ p := by
      rw [hseq]
      exact pixFold_join_single p _ hdisj c₀ hc₀ hp₀ (img p)
    have hvals : ∀ v ∈ (order.map (renderChunk img)).map (fun i => i p),
        v = img p ∨ v = pixFold (img p) c₀ p := by
      intro v hv
      simp only [List.mem_map] at hv
      obtain ⟨ci, ⟨c, hc, rfl⟩, rfl⟩ := hv
      rw [renderChunk_pointwise]
      have hcmem : c ∈ chunkize n l := hperm.subset hc
      by_cases hpc : paints c p
      · right
        by_cases hcc : c = c₀
        · rw [hcc]
        · exact absurd hp₀
            (hdisj.forall pixelDisjoint_symm hcmem hc₀ hcc p hpc)
      · exact Or.inl (pixFold_not_painted hpc (img p))
    have hv₀mem : pixFold (img p) c₀ p ∈
        (order.map (renderChunk img)).map (fun i => i p) := by
      simp only [List.mem_map]
      exact ⟨renderChunk img c₀, ⟨c₀, hperm.mem_iff.mpr hc₀, rfl⟩,
        renderChunk_pointwise img c₀ p⟩
    rw [hseq2]
    by_cases hvb : pixFold (img p) c₀ p = img p
    · rw [hvb]
      exact mfold_all_base _ _ _ (fun v hv => by
        rcases hvals v hv with h | h
        · exact h
        · rw [h, hvb])
    · exact mfold_reaches (img p) _ hvb _ hvals hv₀mem
  · push_neg at hex
    have hvals : ∀ v ∈ (order.map (renderChunk img)).map (fun i => i p),
        v = img p := by
      intro v hv
      simp only [List.mem_map] at hv
      obtain ⟨ci, ⟨c, hc, rfl⟩, rfl⟩ := hv
      rw [renderChunk_pointwise]
      exact pixFold_not_painted (hex c (hperm.subset hc)) (img p)
    rw [mfold_all_base _ _ _ hvals, hseq]
    have hnj : ¬paints (chunkize n l).flatten p := by
      rintro ⟨f, hf, hr⟩
      obtain ⟨c', hc', hfc'⟩ := List.mem_flatten.mp hf
      exact hex c' hc' ⟨f, hfc', hr⟩
    exact (pixFold_not_painted hnj (img p)).symm

/-- First box of the C2 witness: paints pixel 0 with colour 5. -/
def c2A : PaintSpec (Fin 2) := ⟨fun p => p == 0, fun _ => 5⟩

/-- Second box of the C2 witness: paints pixel 1 with colour 7. -/
def c2B : PaintSpec (Fin 2) := ⟨fun p => p == 1, fun _ => 7⟩

/-- Base image of the C2 witness. -/
def c2WBase : Fin 2 → ℕ := fun _ => 0

/-- C2 witness: with two boxes painting disjoint pixels split into two
chunks, the amended theorem's hypotheses hold and the parallel composite
is pixel-identical to the sequential one. -/
theorem C2_witness :
    ([[c2A], [c2B]] : List (List (PaintSpec (Fin 2)))).Perm
      (chunkize 2 [c2A, c2B]) ∧
    (chunkize 2 [c2A, c2B]).Pairwise pixelDisjoint ∧
    ∀ p, render_furnitures_parallel c2WBase [c2A, c2B] 2 [[c2A], [c2B]] p =
      sequentialRender c2WBase [c2A, c2B] p := by
  have hch : chunkize 2 [c2A, c2B] = [[c2A], [c2B]] := rfl
  have hperm : ([[c2A], [c2B]] : List (List (PaintSpec (Fin 2)))).Perm
      (chunkize 2 [c2A, c2B]) := by
    rw [hch]
  have hpw : (chunkize 2 [c2A, c2B]).Pairwise pixelDisjoint := by
    rw [hch]
    refine List.pairwise_cons.mpr ⟨?_, List.pairwise_singleton _ _⟩
    intro c hc p hpa hpb
    rw [List.mem_singleton] at hc
    subst hc
    obtain ⟨f, hf, hr⟩ := hpa
    obtain ⟨g, hg, hgr⟩ := hpb
    rw [List.mem_singleton] at hf hg
    subst hf
    subst hg
    fin_cases p <;> simp [c2A, c2B] at hr hgr
  exact ⟨hperm, hpw,
    C2_parallel_merge_correct_when_disjoint c2WBase [c2A, c2B] 2
      [[c2A], [c2B]] hperm hpw⟩

end Spec2Proof
